import Mathlib

/-!
Verification development for the `coshopnz/food-systems` interactive
food-system visualization (`src/script-v2.js`).

The development shallowly embeds the data-handling and state-transition
kernel of the script:

* a small model of dynamically-typed JSON values (`JSValue`) for the
  shape validator `validateDataStructure`;
* a typed graph model (`Node`, `RawLink`, `Link`) for the loaded dataset,
  with the id-to-node map built in `initPage` and link-endpoint
  resolution (`nodeMapGet`, `resolveLinks`);
* the neighbor query `findConnectedNodes` (a single in-order pass over
  the links array with a growing set, raising a TypeError when a link
  endpoint is `undefined`);
* the staged-disclosure transition `continueFoodJourney` (stage
  detection over the fixed core-node tables, wrap by modulo, next
  visible set = core nodes united with the one-pass-connected nodes);
* the per-node render effects of journey transitions and of
  `toggleCategoryVisibility`;
* the focus-view (mind-map) connected-link deduplication performed by
  `nodeClicked` and its connector-rendering loop;
* the category-circle layout `positionNodes` used by the resize handler,
  and the SVG background-click handler.

JavaScript `Set` objects are insertion ordered; they are modelled as
duplicate-free `List String` values grown by `setAdd`.  Exceptions
(TypeError from property access on `undefined`) are modelled with
`Except Unit`.
-/

namespace FoodSystems

/-! ## JavaScript value model (for the shape validator) -/

/-- A model of the JSON/JavaScript values handled by the loader:
`undefined`, `null`, booleans, (integer) numbers, strings, arrays and
plain objects. -/
inductive JSValue where
  | jsUndefined
  | null
  | bool (b : Bool)
  | num (n : Int)
  | str (s : String)
  | arr (elems : List JSValue)
  | obj (fields : List (String × JSValue))
deriving Repr

/-- JavaScript truthiness: `undefined`, `null`, `false`, `0` and `""` are
falsy; every array and object is truthy. -/
def JSValue.truthy : JSValue → Bool
  | .jsUndefined => false
  | .null => false
  | .bool b => b
  | .num n => n != 0
  | .str s => s != ""
  | .arr _ => true
  | .obj _ => true

/-- `typeof v === 'object'` : true exactly for `null`, arrays and
objects. -/
def JSValue.isObjectType : JSValue → Bool
  | .null => true
  | .arr _ => true
  | .obj _ => true
  | _ => false

/-- `Array.isArray(v)`. -/
def JSValue.isArray : JSValue → Bool
  | .arr _ => true
  | _ => false

/-- Property access `v.k` : on an object the value stored under `k`
(with the later of duplicate keys winning, as in JavaScript object
literals), `undefined` otherwise. -/
def JSValue.getField (v : JSValue) (k : String) : JSValue :=
  match v with
  | .obj fields =>
    match fields.reverse.find? (fun p => p.1 == k) with
    | some p => p.2
    | none => .jsUndefined
  | _ => .jsUndefined

/-- `v.length` for an array (the validator only reads it after an
`Array.isArray` guard). -/
def JSValue.arrLength : JSValue → Nat
  | .arr l => l.length
  | _ => 0

/-- `v[0]` : the first element of an array, `undefined` when absent. -/
def JSValue.arrHead : JSValue → JSValue
  | .arr (x :: _) => x
  | _ => .jsUndefined

/-- Embedding of `validateDataStructure` (src/script-v2.js lines
94-135): a chain of early `return false` checks on the payload shape,
inspecting only the first node and the first link. -/
def validateDataStructure (data : JSValue) : Bool :=
  if !data.truthy || !data.isObjectType then false
  else if !(data.getField "nodes").isArray || (data.getField "nodes").arrLength == 0 then false
  else if !(data.getField "links").isArray || (data.getField "links").arrLength == 0 then false
  else
    let sampleNode := (data.getField "nodes").arrHead
    if !(sampleNode.getField "id").truthy || !(sampleNode.getField "group").truthy
        || !(sampleNode.getField "label").truthy then false
    else
      let sampleLink := (data.getField "links").arrHead
      if !(sampleLink.getField "source").truthy || !(sampleLink.getField "target").truthy
          || !(sampleLink.getField "type").truthy then false
      else if (sampleLink.getField "examples").truthy
          && !(sampleLink.getField "examples").isArray then false
      else true

/-- Convenience constructor for a dataset payload
`{ nodes: ..., links: ... }`. -/
def mkData (nodesV linksV : JSValue) : JSValue :=
  .obj [("nodes", nodesV), ("links", linksV)]

/-- The acceptance condition of `validateDataStructure` as worded by the
claim (for the refinement comparison): the payload is a truthy object,
`nodes` and `links` are non-empty arrays, the first node has truthy
`id`, `group`, `label`, the first link has truthy `source`, `target`,
`type`, and the first link's `examples`, when truthy, is an array. -/
def validateSpecC10 (data : JSValue) : Bool :=
  data.truthy && data.isObjectType
    && (data.getField "nodes").isArray && !((data.getField "nodes").arrLength == 0)
    && (data.getField "links").isArray && !((data.getField "links").arrLength == 0)
    && ((data.getField "nodes").arrHead.getField "id").truthy
    && ((data.getField "nodes").arrHead.getField "group").truthy
    && ((data.getField "nodes").arrHead.getField "label").truthy
    && ((data.getField "links").arrHead.getField "source").truthy
    && ((data.getField "links").arrHead.getField "target").truthy
    && ((data.getField "links").arrHead.getField "type").truthy
    && (!((data.getField "links").arrHead.getField "examples").truthy
        || ((data.getField "links").arrHead.getField "examples").isArray)

/-! ## Typed graph model (the loaded dataset) -/

/-- A dataset node after load (the fields the claims depend on). -/
structure Node where
  id : String
  group : String
  label : String
deriving Repr, DecidableEq

/-- A link as it appears in the JSON file: endpoint ids and a type. -/
structure RawLink where
  source : String
  target : String
  type : String
deriving Repr, DecidableEq

/-- A link after endpoint resolution in `initPage` (line 63):
`source`/`target` hold the node returned by `nodeMap.get`, which is
`undefined` (`none`) when the id is absent from the map. -/
structure Link where
  source : Option Node
  target : Option Node
  type : String
deriving Repr, DecidableEq

/-- `nodeMap.get i` for `nodeMap = new Map(nodes.map(node => [node.id,
node]))` (line 60): a JavaScript `Map` built from pairs keeps the last
pair for a duplicated key, so lookup finds the last node carrying the
id. -/
def nodeMapGet (nodes : List Node) (i : String) : Option Node :=
  nodes.reverse.find? (fun n => n.id == i)

/-- Link processing in `initPage` (line 63): every raw link is kept and
its endpoints are replaced by the `nodeMap` lookups. -/
def resolveLinks (nodes : List Node) (rawLinks : List RawLink) : List Link :=
  rawLinks.map fun l => ⟨nodeMapGet nodes l.source, nodeMapGet nodes l.target, l.type⟩

/-- The data bound to the node selection (lines 632-647):
`selectAll("g").data(nodes).join("g")` binds every element of the
`nodes` array, one DOM group per array entry. -/
def renderedNodeData (nodes : List Node) : List Node :=
  nodes

/-- The data bound to the link selection (lines 539-543):
`selectAll("line").data(links).join("line")` binds every element of the
processed `links` array; no link is filtered out. -/
def renderedLinkData (links : List Link) : List Link :=
  links

/-- `d3.select(".node-group[data-id=...]")` : d3 `select` returns the
first matching element in document order, i.e. the first node of the
array with the given id. -/
def domFirstNodeWithId (nodes : List Node) (i : String) : Option Node :=
  nodes.find? (fun n => n.id == i)

/-! ## JavaScript sets -/

/-- `s.add(x)` on a JavaScript `Set` modelled as an insertion-ordered
duplicate-free list. -/
def setAdd (s : List String) (x : String) : List String :=
  if x ∈ s then s else s ++ [x]

/-- `new Set(xs)` : deduplicate keeping first occurrences. -/
def jsSetOfList (xs : List String) : List String :=
  xs.foldl setAdd []

/-- `new Set([...xs, ...ys])` (line 1618). -/
def jsSetUnion (xs ys : List String) : List String :=
  (xs ++ ys).foldl setAdd []

/-! ## findConnectedNodes (lines 1430-1446) -/

/-- One iteration of the `links.forEach` loop in `findConnectedNodes`.
`link.source.id` (resp. `link.target.id`) is a TypeError when the
endpoint failed to resolve, which aborts the whole query. -/
def findConnectedStep (s : List String) (l : Link) : Except Unit (List String) :=
  match l.source, l.target with
  | some src, some tgt =>
    let s1 := if src.id ∈ s then setAdd s tgt.id else s
    let s2 := if tgt.id ∈ s1 then setAdd s1 src.id else s1
    .ok s2
  | _, _ => .error ()

/-- The `links.forEach` loop of `findConnectedNodes`: a single in-order
pass, each link adding its other endpoint whenever one endpoint is
already in the accumulated set. -/
def findConnectedAux (s : List String) : List Link → Except Unit (List String)
  | [] => .ok s
  | l :: ls =>
    match findConnectedStep s l with
    | .ok s2 => findConnectedAux s2 ls
    | .error e => .error e

/-- `findConnectedNodes(startNodeIds)` (lines 1430-1446). -/
def findConnectedNodes (startNodeIds : List String) (links : List Link) :
    Except Unit (List String) :=
  findConnectedAux (jsSetOfList startNodeIds) links

/-- The spec's transition rule, for the refinement comparison: the ids
directly graph-connected by one hop to the given core list (other
endpoint of a resolved link whose remaining endpoint is a core id). -/
def oneHopNeighborsSpec (cores : List String) (links : List Link) : List String :=
  links.flatMap fun l =>
    match l.source, l.target with
    | some a, some b =>
      (if a.id ∈ cores then [b.id] else []) ++ (if b.id ∈ cores then [a.id] else [])
    | _, _ => []

/-! ## continueFoodJourney (lines 1448-1683) -/

/-- Core-node list of journey stage 1 (line 1459). -/
def stage1Cores : List String :=
  ["environment", "inputs", "production", "fertilizer_industry", "pest_management"]

/-- Core-node list of journey stage 2 (lines 1470-1471). -/
def stage2Cores : List String :=
  ["environment", "inputs", "production", "fertilizer_industry", "pest_management",
   "packhouses", "processing"]

/-- Core-node list of journey stage 3 (lines 1484-1485). -/
def stage3Cores : List String :=
  ["environment", "inputs", "production", "fertilizer_industry", "pest_management",
   "packhouses", "processing", "distribution", "imports", "exports"]

/-- Core-node list of journey stage 4 (lines 1501-1503). -/
def stage4Cores : List String :=
  ["environment", "inputs", "production", "fertilizer_industry", "pest_management",
   "packhouses", "processing", "distribution", "imports", "exports",
   "wholesalers", "food_rescue", "school_food_programs"]

/-- Core-node list of journey stage 5 (lines 1522-1525). -/
def stage5Cores : List String :=
  ["environment", "inputs", "production", "fertilizer_industry", "pest_management",
   "packhouses", "processing", "distribution", "imports", "exports",
   "wholesalers", "food_rescue", "school_food_programs",
   "supermarkets", "grocers", "markets", "food_service", "restaurants"]

/-- Core-node list of journey stage 6 (lines 1549-1552). -/
def stage6Cores : List String :=
  ["environment", "inputs", "production", "fertilizer_industry", "pest_management",
   "packhouses", "processing", "distribution", "imports", "exports",
   "wholesalers", "food_rescue", "school_food_programs",
   "supermarkets", "grocers", "markets", "food_service", "restaurants", "consumption"]

/-- The `coreNodes` column of the `journeyStages` table (lines
1456-1580); the final stage's core list is `nodes.map(node => node.id)`
(line 1577). -/
def journeyStageCoreLists (nodes : List Node) : List (List String) :=
  [stage1Cores, stage2Cores, stage3Cores, stage4Cores, stage5Cores, stage6Cores,
   nodes.map (fun n => n.id)]

/-- Stage detection (lines 1583-1605): the index of the first stage all
of whose core nodes are in the currently expanded set (`-1`, modelled as
`none`, when no stage matches; the loop breaks at the first match). -/
def detectCurrentStage (expanded : List String) : List (List String) → Option Nat
  | [] => none
  | cores :: rest =>
    if cores.all (fun i => decide (i ∈ expanded)) then some 0
    else (detectCurrentStage expanded rest).map (· + 1)

/-- The core-node list of the stage `continueFoodJourney` moves to
(lines 1582-1612): detect the current stage, step to
`(currentStageIndex + 1) % journeyStages.length`, and read that stage's
`coreNodes` entry. -/
def nextStageCores (nodes : List Node) (expanded : List String) : List String :=
  let stages := journeyStageCoreLists nodes
  let currentStageIndex : Int :=
    match detectCurrentStage expanded stages with
    | some i => (i : Int)
    | none => -1
  let nextStageIndex : Nat := ((currentStageIndex + 1) % (stages.length : Int)).toNat
  stages.getD nextStageIndex []

/-- The `expandedNodes` update performed by `continueFoodJourney` (lines
1582-1618): the next stage's core nodes united with the nodes the
one-pass neighbor query returns for them
(`new Set([...nextCoreCoreNodes, ...allConnectedNodes])`). -/
def continueFoodJourney (nodes : List Node) (links : List Link)
    (expanded : List String) : Except Unit (List String) :=
  match findConnectedNodes (nextStageCores nodes expanded) links with
  | .ok connected => .ok (jsSetUnion (nextStageCores nodes expanded) connected)
  | .error e => .error e

/-! ## Per-node render effects -/

/-- The render state of one node's DOM group: the CSS `hidden` class
(set by the category checkboxes) and the inline `opacity` style
(written by several competing handlers; `pointer-events` is always
written alongside it with the matching value).  The visibility the user
sees is not the inline style alone: see `renderedOpacity` for the
stylesheet override. -/
structure NodeRender where
  node : Node
  hidden : Bool
  opacity : Nat
deriving Repr, DecidableEq

/-- The computed opacity of a node group.  src/style.css (lines
314-317) declares `.node-group.hidden { opacity: 0 !important;
pointer-events: none !important; }`, and an author `!important`
declaration overrides inline styles, so a node carrying the `hidden`
class has computed opacity 0 (and no pointer events) whatever inline
opacity a handler wrote; otherwise the inline opacity stands. -/
def renderedOpacity (r : NodeRender) : Nat :=
  if r.hidden then 0 else r.opacity

/-- `toggleCategoryVisibility(category, showCategory)` (lines
1952-1980): when at least one node carries the category, every node of
that category gets `hidden := !showCategory` and its opacity set from
the checkbox alone; nodes of other categories are untouched. -/
def toggleCategoryVisibility (category : String) (showCategory : Bool)
    (rs : List NodeRender) : List NodeRender :=
  if (rs.filter (fun r => r.node.group == category)).length == 0 then rs
  else
    rs.map fun r =>
      if r.node.group == category then
        { r with hidden := !showCategory, opacity := if showCategory then 1 else 0 }
      else r

/-- The node transition run by `continueFoodJourney` (lines 1654-1657):
opacity (and pointer events) are set from stage membership alone; the
`hidden` class is neither consulted nor changed. -/
def journeyRevealTransition (expanded : List String) (rs : List NodeRender) :
    List NodeRender :=
  rs.map fun r => { r with opacity := if r.node.id ∈ expanded then 1 else 0 }

/-! ## nodeClicked: focus-view connected links (lines 886-913, 1017-1027) -/

/-- The link types traversed in focus view (line 897): `problem` links
are included only in the negative view mode. -/
def allowedMindMapTypes (isNegativeView : Bool) : List String :=
  if isNegativeView then ["flow", "influence", "waste", "problem"]
  else ["flow", "influence", "waste"]

/-- Lexicographic comparison of character lists by code point, the
order `Array.prototype.sort()` uses on strings (UTF-16 code units;
identical to code points for the ASCII ids of this dataset). -/
def charListLe : List Char → List Char → Bool
  | [], _ => true
  | _ :: _, [] => false
  | a :: as, b :: bs =>
    if a.toNat < b.toNat then true
    else if b.toNat < a.toNat then false
    else charListLe as bs

/-- String comparison underlying the JavaScript sort. -/
def jsStringLe (a b : String) : Bool :=
  charListLe a.data b.data

/-- `[a, b].sort().join('-') + '-' + ty` (lines 903 and 1023). -/
def sortedPairKey (a b ty : String) : String :=
  (if jsStringLe a b then a ++ "-" ++ b else b ++ "-" ++ a) ++ "-" ++ ty

/-- One iteration of the `links.forEach` dedup loop in `nodeClicked`
(lines 893-910).  The accumulator holds the `connectedNodes` set (the
clicked node plus encountered neighbors) and the insertion-ordered
`uniqueLinksMap` (first link per key wins).  Reading `link.source.id` on
an unresolved matching link is a TypeError. -/
def nodeClickedStep (d : Node) (isNegativeView : Bool)
    (acc : List Node × List (String × Link)) (l : Link) :
    Except Unit (List Node × List (String × Link)) :=
  if (l.source = some d ∨ l.target = some d)
      ∧ l.type ∈ allowedMindMapTypes isNegativeView then
    match l.source, l.target with
    | some src, some tgt =>
      let other := if l.source = some d then tgt else src
      let conn := if other ∈ acc.1 then acc.1 else acc.1 ++ [other]
      let key := sortedPairKey src.id tgt.id l.type
      let m := if key ∈ acc.2.map Prod.fst then acc.2 else acc.2 ++ [(key, l)]
      .ok (conn, m)
    | _, _ => .error ()
  else .ok acc

/-- The loop body folded over the whole links array. -/
def nodeClickedAux (d : Node) (isNegativeView : Bool)
    (acc : List Node × List (String × Link)) :
    List Link → Except Unit (List Node × List (String × Link))
  | [] => .ok acc
  | l :: ls =>
    match nodeClickedStep d isNegativeView acc l with
    | .ok acc2 => nodeClickedAux d isNegativeView acc2 ls
    | .error e => .error e

/-- The connected-node / deduplicated-link computation of `nodeClicked`
(lines 887-913): `connectedNodes` starts as `new Set([d])` and
`uniqueLinksMap` empty; `connectedLinks` is the map's value list. -/
def nodeClickedConnections (d : Node) (links : List Link) (isNegativeView : Bool) :
    Except Unit (List Node × List (String × Link)) :=
  nodeClickedAux d isNegativeView ([d], []) links

/-- One iteration of the connector-rendering loop of `nodeClicked`
(lines 1017-1058): endpoints are recomputed (`source = link.source === d
? d : link.source`, `target = link.source === d ? link.target :
link.source`), a key is formed from the sorted endpoint ids plus the
type, and a path is appended only for keys not rendered yet. -/
def renderConnectorStep (d : Node) (acc : List (String × Node × Node))
    (l : Link) : Except Unit (List (String × Node × Node)) :=
  let src := if l.source = some d then some d else l.source
  let tgt := if l.source = some d then l.target else l.source
  match src, tgt with
  | some s, some t =>
    let key := sortedPairKey s.id t.id l.type
    if key ∈ acc.map Prod.fst then .ok acc
    else .ok (acc ++ [(key, s, t)])
  | _, _ => .error ()

/-- The connector-rendering loop folded over `connectedLinks`. -/
def renderConnectorsAux (d : Node) (acc : List (String × Node × Node)) :
    List Link → Except Unit (List (String × Node × Node))
  | [] => .ok acc
  | l :: ls =>
    match renderConnectorStep d acc l with
    | .ok acc2 => renderConnectorsAux d acc2 ls
    | .error e => .error e

/-- The rendered mind-map connectors for a clicked node, one path per
distinct key (lines 1017-1058). -/
def renderMindMapConnectors (d : Node) (connectedLinks : List Link) :
    Except Unit (List (String × Node × Node)) :=
  renderConnectorsAux d [] connectedLinks

/-! ## positionNodes and the resize handler (lines 138-171, 2042-2054) -/

/-- A node together with its mutable layout state: the current
coordinates `x`, `y` and the optional pins `fx`, `fy`. -/
structure SimNode where
  node : Node
  x : ℚ
  y : ℚ
  fx : Option ℚ
  fy : Option ℚ
deriving Repr, DecidableEq

/-- The `categoryPositions` table of `positionNodes` (lines 140-148),
with the `|| { x: width * 0.5, y: height * 0.5 }` fallback for an
unlisted category (line 161). -/
def categoryCenter (w h : ℚ) (g : String) : ℚ × ℚ :=
  if g == "core_flow" then (w * (5 / 10), h * (5 / 10))
  else if g == "subsystem" then (w * (3 / 10), h * (3 / 10))
  else if g == "community" then (w * (7 / 10), h * (7 / 10))
  else if g == "policy" then (w * (2 / 10), h * (2 / 10))
  else if g == "health" then (w * (8 / 10), h * (2 / 10))
  else if g == "factor" then (w * (2 / 10), h * (8 / 10))
  else if g == "economic" then (w * (8 / 10), h * (8 / 10))
  else (w * (5 / 10), h * (5 / 10))

/-- `positionNodes(nodes, width, height)` (lines 138-171): nodes are
grouped by category and the `i`-th of the `n` nodes of a category is
placed on a circle of radius `min(width, height) * 0.15` around the
category center, at angle `i * (2π / n)`.  Writing the position of a
node only needs its category, its index among same-category nodes and
their count, so the two-phase grouping is embedded as one map over the
array.  `Math.cos` / `Math.sin` at angle `i * (2π / n)` are transcendental,
so they enter as the function parameters `cosFrac i n` / `sinFrac i n`;
every concrete evaluation below uses only `i = 0`, where
`cos 0 = 1` and `sin 0 = 0` exactly.  `x` and `y` are overwritten for
every node; `fx` and `fy` are never touched. -/
def positionNodes (cosFrac sinFrac : Nat → Nat → ℚ) (w h : ℚ)
    (ns : List SimNode) : List SimNode :=
  ns.enum.map fun p =>
    let sn := p.2
    let g := sn.node.group
    let cnt := (ns.filter (fun m => m.node.group == g)).length
    let i := ((ns.take p.1).filter (fun m => m.node.group == g)).length
    let c := categoryCenter w h g
    let radius := (min w h) * (15 / 100 : ℚ)
    { sn with x := c.1 + radius * cosFrac i cnt, y := c.2 + radius * sinFrac i cnt }

/-- The `window` resize listener (lines 2042-2054): update the SVG
dimensions, then `positionNodes(nodes, newWidth, newHeight)` and
`updatePositions()`; nothing else is touched. -/
def resizeRelayout (cosFrac sinFrac : Nat → Nat → ℚ) (newW newH : ℚ)
    (ns : List SimNode) : List SimNode :=
  positionNodes cosFrac sinFrac newW newH ns

/-- `updatePositions` (lines 843-854) draws every node group at
`translate(d.x, d.y)`: the on-screen position is read from `x`/`y`, not
from the pins. -/
def renderedTransform (sn : SimNode) : ℚ × ℚ :=
  (sn.x, sn.y)

/-- Stand-in for `Math.cos` in evaluations that only reach angle `0`
(single-node categories): `cos 0 = 1`, exact also in IEEE doubles. -/
def cosAtZero : Nat → Nat → ℚ := fun _ _ => 1

/-- Stand-in for `Math.sin` in evaluations that only reach angle `0`
(single-node categories): `sin 0 = 0`, exact also in IEEE doubles. -/
def sinAtZero : Nat → Nat → ℚ := fun _ _ => 0

/-! ## The SVG background-click handler (lines 2057-2119) -/

/-- The interaction state the background-click handler reads and
writes. -/
structure VizState where
  nodes : List Node
  links : List Link
  isJourneyExpanded : Bool
  expandedNodes : List String
  selectedNode : Option String
  detailsText : String
  pinnedIds : List String
  mindMapElementCount : Nat
  idleAnimationsRunning : Bool
  layoutIsInitial : Bool
deriving Repr, DecidableEq

/-- The `svg.on('click', ...)` handler (lines 2057-2119).  When the
journey is expanded and fewer nodes are expanded than exist
(`expandedNodes.size < nodes.length`, line 2062), the click only calls
`continueFoodJourney` and returns; otherwise it clears the selection,
resets the details panel, clears every `fx`/`fy` pin, restores the
initial layout, removes the mind-map and example elements, and restarts
the idle link animations. -/
def svgBackgroundClick (s : VizState) : Except Unit VizState :=
  if s.isJourneyExpanded && decide (s.expandedNodes.length < s.nodes.length) then
    match continueFoodJourney s.nodes s.links s.expandedNodes with
    | .ok e => .ok { s with expandedNodes := e }
    | .error e => .error e
  else
    .ok { s with
          selectedNode := none,
          detailsText := "Select an element to see details.",
          pinnedIds := [],
          layoutIsInitial := true,
          mindMapElementCount := 0,
          idleAnimationsRunning := true }

/-! ## Shared concrete instances -/

/-- The root node of the journey. -/
def envNode : Node := ⟨"environment", "factor", "Environment"⟩

/-- A production node (category `core_flow`). -/
def prodNode : Node := ⟨"production", "core_flow", "Production"⟩

/-- An inputs node. -/
def inputsNode : Node := ⟨"inputs", "subsystem", "Inputs"⟩

/-- A fertilizer-industry node. -/
def fertNode : Node := ⟨"fertilizer_industry", "economic", "Fertilizer industry"⟩

/-- A pest-management node. -/
def pestNode : Node := ⟨"pest_management", "economic", "Pest management"⟩

/-- A five-node dataset holding exactly the stage-1 core nodes. -/
def nodes5 : List Node := [envNode, inputsNode, prodNode, fertNode, pestNode]

/-- Its links: a single resolved flow link environment → production. -/
def links5 : List Link := resolveLinks nodes5 [⟨"environment", "production", "flow"⟩]

/-- Generic nodes for small graphs. -/
def aNode : Node := ⟨"a", "factor", "A"⟩

/-- Generic nodes for small graphs. -/
def bNode : Node := ⟨"b", "factor", "B"⟩

/-- A three-node dataset environment, a, b. -/
def nodesAB : List Node := [envNode, aNode, bNode]

/-- Its links, ordered so that the chain environment → a → b is walked
in one pass: the neighbor query reaches `b`, two hops from the core. -/
def linksAB : List Link :=
  resolveLinks nodesAB [⟨"environment", "a", "flow"⟩, ⟨"a", "b", "flow"⟩]

/-- The JSON value of a well-formed environment node. -/
def envJS : JSValue :=
  .obj [("id", .str "environment"), ("group", .str "factor"),
        ("label", .str "Environment")]

/-! ## Helper lemmas about JavaScript sets -/

lemma subset_setAdd (s : List String) (y : String) : s ⊆ setAdd s y := by
  unfold setAdd
  split
  · exact fun x hx => hx
  · exact fun x hx => List.mem_append_left _ hx

lemma mem_setAdd_self (s : List String) (y : String) : y ∈ setAdd s y := by
  unfold setAdd
  split
  · assumption
  · exact List.mem_append_right _ (List.mem_singleton.mpr rfl)

lemma mem_setAdd {s : List String} {y x : String} :
    x ∈ setAdd s y ↔ x ∈ s ∨ x = y := by
  unfold setAdd
  split
  · rename_i hy
    constructor
    · exact fun h => Or.inl h
    · rintro (h | rfl)
      · exact h
      · exact hy
  · simp [List.mem_append]

lemma mem_foldl_setAdd (xs : List String) :
    ∀ acc x, x ∈ xs.foldl setAdd acc ↔ x ∈ acc ∨ x ∈ xs := by
  induction xs with
  | nil => simp
  | cons a l ih =>
    intro acc x
    rw [List.foldl_cons, ih, mem_setAdd]
    simp [or_assoc]

lemma mem_jsSetOfList {xs : List String} {x : String} :
    x ∈ jsSetOfList xs ↔ x ∈ xs := by
  unfold jsSetOfList
  rw [mem_foldl_setAdd]
  simp

lemma mem_jsSetUnion {a b : List String} {x : String} :
    x ∈ jsSetUnion a b ↔ x ∈ a ∨ x ∈ b := by
  unfold jsSetUnion
  rw [mem_foldl_setAdd]
  simp [List.mem_append]

/-! ## Helper lemmas about findConnectedNodes -/

lemma findConnectedStep_subset {s : List String} {l : Link} {s2 : List String}
    (h : findConnectedStep s l = .ok s2) : s ⊆ s2 := by
  unfold findConnectedStep at h
  cases hs : l.source with
  | none => rw [hs] at h; exact absurd h (by simp)
  | some src =>
    cases ht : l.target with
    | none => rw [hs, ht] at h; exact absurd h (by simp)
    | some tgt =>
      rw [hs, ht] at h
      simp only [Except.ok.injEq] at h
      subst h
      intro x hx
      split
      · split
        · exact subset_setAdd _ _ (subset_setAdd _ _ hx)
        · exact subset_setAdd _ _ hx
      · split
        · exact subset_setAdd _ _ hx
        · exact hx

lemma findConnectedStep_error {s : List String} {l : Link}
    (h : l.source = none ∨ l.target = none) :
    findConnectedStep s l = .error () := by
  unfold findConnectedStep
  rcases h with h | h
  · rw [h]
  · rw [h]
    cases l.source <;> rfl

lemma findConnectedAux_subset :
    ∀ (ls : List Link) (s r : List String), findConnectedAux s ls = .ok r → s ⊆ r := by
  intro ls
  induction ls with
  | nil =>
    intro s r h
    simp only [findConnectedAux, Except.ok.injEq] at h
    subst h
    exact fun x hx => hx
  | cons l tail ih =>
    intro s r h
    simp only [findConnectedAux] at h
    cases hstep : findConnectedStep s l with
    | ok s2 =>
      rw [hstep] at h
      exact fun x hx => ih s2 r h (findConnectedStep_subset hstep hx)
    | error e =>
      rw [hstep] at h
      exact absurd h (by simp)

lemma findConnectedAux_error :
    ∀ (ls : List Link) (s : List String),
      (∃ l ∈ ls, l.source = none ∨ l.target = none) →
      findConnectedAux s ls = .error () := by
  intro ls
  induction ls with
  | nil => intro s h; exact absurd h (by simp)
  | cons l tail ih =>
    intro s h
    simp only [findConnectedAux]
    rcases h with ⟨l2, hmem, hbad⟩
    rcases List.mem_cons.mp hmem with rfl | hmem2
    · rw [findConnectedStep_error hbad]
    · cases hstep : findConnectedStep s l with
      | ok s2 => exact ih s2 ⟨l2, hmem2, hbad⟩
      | error e => cases e; rfl

lemma findConnectedAux_one_hop {cores : List String} :
    ∀ (ls : List Link) (s r : List String),
      (∀ i ∈ cores, i ∈ s) →
      findConnectedAux s ls = .ok r →
      ∀ l ∈ ls, ∀ a b : Node, l.source = some a → l.target = some b →
        (a.id ∈ cores → b.id ∈ r) ∧ (b.id ∈ cores → a.id ∈ r) := by
  intro ls
  induction ls with
  | nil => intro s r _ _ l hl; exact absurd hl (by simp)
  | cons hd tail ih =>
    intro s r hsub h l hl a b hsrc htgt
    simp only [findConnectedAux] at h
    cases hstep : findConnectedStep s hd with
    | error e => rw [hstep] at h; exact absurd h (by simp)
    | ok s2 =>
      rw [hstep] at h
      rcases List.mem_cons.mp hl with rfl | hl2
      · unfold findConnectedStep at hstep
        rw [hsrc, htgt] at hstep
        simp only [Except.ok.injEq] at hstep
        have hr2 : s2 ⊆ r := findConnectedAux_subset tail s2 r h
        constructor
        · intro ha
          apply hr2
          rw [← hstep]
          have hbs1 : b.id ∈ (if a.id ∈ s then setAdd s b.id else s) := by
            rw [if_pos (hsub _ ha)]
            exact mem_setAdd_self _ _
          by_cases hcond : b.id ∈ (if a.id ∈ s then setAdd s b.id else s)
          · rw [if_pos hcond]
            exact subset_setAdd _ _ hbs1
          · rw [if_neg hcond]
            exact hbs1
        · intro hb
          apply hr2
          rw [← hstep]
          have hbs1 : b.id ∈ (if a.id ∈ s then setAdd s b.id else s) := by
            split
            · exact subset_setAdd _ _ (hsub _ hb)
            · exact hsub _ hb
          rw [if_pos hbs1]
          exact mem_setAdd_self _ _
      · exact ih s2 r (fun i hi => findConnectedStep_subset hstep (hsub i hi)) h
          l hl2 a b hsrc htgt

/-! ## Helper lemmas about the nodeClicked dedup loops -/

lemma nodeClickedStep_ok_cases {d : Node} {neg : Bool}
    {acc : List Node × List (String × Link)} {l : Link}
    {acc2 : List Node × List (String × Link)}
    (h : nodeClickedStep d neg acc l = .ok acc2) :
    acc2.2 = acc.2 ∨
      ∃ key link, key ∉ acc.2.map Prod.fst ∧ acc2.2 = acc.2 ++ [(key, link)] := by
  unfold nodeClickedStep at h
  split at h
  · cases hs : l.source with
    | none =>
      rw [hs] at h
      exact absurd h (by simp)
    | some src =>
      cases ht : l.target with
      | none =>
        rw [hs, ht] at h
        exact absurd h (by simp)
      | some tgt =>
        rw [hs, ht] at h
        simp only [Except.ok.injEq] at h
        subst h
        by_cases hkey : sortedPairKey src.id tgt.id l.type ∈ acc.2.map Prod.fst
        · left
          simp [hkey]
        · right
          exact ⟨sortedPairKey src.id tgt.id l.type, l, hkey, by simp [hkey]⟩
  · simp only [Except.ok.injEq] at h
    subst h
    left
    rfl

lemma nodeClickedStep_keys_mono {d : Node} {neg : Bool}
    {acc : List Node × List (String × Link)} {l : Link}
    {acc2 : List Node × List (String × Link)}
    (h : nodeClickedStep d neg acc l = .ok acc2) :
    acc.2.map Prod.fst ⊆ acc2.2.map Prod.fst := by
  rcases nodeClickedStep_ok_cases h with heq | ⟨key, link, _, heq⟩
  · rw [heq]; exact fun x hx => hx
  · rw [heq]
    intro x hx
    simp only [List.map_append, List.map_cons, List.map_nil]
    exact List.mem_append_left _ hx

lemma nodeClickedStep_keys_nodup {d : Node} {neg : Bool}
    {acc : List Node × List (String × Link)} {l : Link}
    {acc2 : List Node × List (String × Link)}
    (h : nodeClickedStep d neg acc l = .ok acc2)
    (hnd : (acc.2.map Prod.fst).Nodup) : (acc2.2.map Prod.fst).Nodup := by
  rcases nodeClickedStep_ok_cases h with heq | ⟨key, link, hkey, heq⟩
  · rw [heq]; exact hnd
  · rw [heq]
    simp only [List.map_append, List.map_cons, List.map_nil]
    simp [List.nodup_append, hnd, hkey]

lemma nodeClickedStep_matched_key {d : Node} {neg : Bool}
    {acc : List Node × List (String × Link)} {l : Link}
    {acc2 : List Node × List (String × Link)} {a b : Node}
    (h : nodeClickedStep d neg acc l = .ok acc2)
    (hsrc : l.source = some a) (htgt : l.target = some b)
    (hmatch : l.source = some d ∨ l.target = some d)
    (hty : l.type ∈ allowedMindMapTypes neg) :
    sortedPairKey a.id b.id l.type ∈ acc2.2.map Prod.fst := by
  unfold nodeClickedStep at h
  rw [if_pos ⟨hmatch, hty⟩] at h
  rw [hsrc, htgt] at h
  simp only [Except.ok.injEq] at h
  subst h
  by_cases hkey : sortedPairKey a.id b.id l.type ∈ acc.2.map Prod.fst
  · simp [hkey]
  · simp [hkey]

lemma nodeClickedAux_keys_mono {d : Node} {neg : Bool} :
    ∀ (ls : List Link) (acc res : List Node × List (String × Link)),
      nodeClickedAux d neg acc ls = .ok res →
      acc.2.map Prod.fst ⊆ res.2.map Prod.fst := by
  intro ls
  induction ls with
  | nil =>
    intro acc res h
    simp only [nodeClickedAux, Except.ok.injEq] at h
    subst h
    exact fun x hx => hx
  | cons l tail ih =>
    intro acc res h
    simp only [nodeClickedAux] at h
    cases hstep : nodeClickedStep d neg acc l with
    | error e => rw [hstep] at h; exact absurd h (by simp)
    | ok acc2 =>
      rw [hstep] at h
      exact fun x hx => ih acc2 res h (nodeClickedStep_keys_mono hstep hx)

lemma nodeClickedAux_keys_nodup {d : Node} {neg : Bool} :
    ∀ (ls : List Link) (acc res : List Node × List (String × Link)),
      nodeClickedAux d neg acc ls = .ok res →
      (acc.2.map Prod.fst).Nodup → (res.2.map Prod.fst).Nodup := by
  intro ls
  induction ls with
  | nil =>
    intro acc res h hnd
    simp only [nodeClickedAux, Except.ok.injEq] at h
    subst h
    exact hnd
  | cons l tail ih =>
    intro acc res h hnd
    simp only [nodeClickedAux] at h
    cases hstep : nodeClickedStep d neg acc l with
    | error e => rw [hstep] at h; exact absurd h (by simp)
    | ok acc2 =>
      rw [hstep] at h
      exact ih acc2 res h (nodeClickedStep_keys_nodup hstep hnd)

lemma nodeClickedAux_matched {d : Node} {neg : Bool} :
    ∀ (ls : List Link) (acc res : List Node × List (String × Link)),
      nodeClickedAux d neg acc ls = .ok res →
      ∀ l ∈ ls, ∀ a b : Node, l.source = some a → l.target = some b →
        (l.source = some d ∨ l.target = some d) →
        l.type ∈ allowedMindMapTypes neg →
        sortedPairKey a.id b.id l.type ∈ res.2.map Prod.fst := by
  intro ls
  induction ls with
  | nil => intro acc res _ l hl; exact absurd hl (by simp)
  | cons hd tail ih =>
    intro acc res h l hl a b hsrc htgt hmatch hty
    simp only [nodeClickedAux] at h
    cases hstep : nodeClickedStep d neg acc hd with
    | error e => rw [hstep] at h; exact absurd h (by simp)
    | ok acc2 =>
      rw [hstep] at h
      rcases List.mem_cons.mp hl with rfl | hl2
      · exact nodeClickedAux_keys_mono tail acc2 res h
          (nodeClickedStep_matched_key hstep hsrc htgt hmatch hty)
      · exact ih acc2 res h l hl2 a b hsrc htgt hmatch hty

lemma renderConnectorStep_ok_cases {d : Node} {acc : List (String × Node × Node)}
    {l : Link} {acc2 : List (String × Node × Node)}
    (h : renderConnectorStep d acc l = .ok acc2) :
    acc2 = acc ∨ ∃ key st, key ∉ acc.map Prod.fst ∧ acc2 = acc ++ [(key, st)] := by
  unfold renderConnectorStep at h
  cases hs : (if l.source = some d then some d else l.source) with
  | none =>
    rw [hs] at h
    exact absurd h (by simp)
  | some s =>
    cases ht : (if l.source = some d then l.target else l.source) with
    | none =>
      rw [hs, ht] at h
      exact absurd h (by simp)
    | some t =>
      rw [hs, ht] at h
      dsimp only at h
      by_cases hkey : sortedPairKey s.id t.id l.type ∈ acc.map Prod.fst
      · rw [if_pos hkey] at h
        simp only [Except.ok.injEq] at h
        exact Or.inl h.symm
      · rw [if_neg hkey] at h
        simp only [Except.ok.injEq] at h
        exact Or.inr ⟨_, _, hkey, h.symm⟩

lemma renderConnectorsAux_keys_nodup {d : Node} :
    ∀ (ls : List Link) (acc res : List (String × Node × Node)),
      renderConnectorsAux d acc ls = .ok res →
      (acc.map Prod.fst).Nodup → (res.map Prod.fst).Nodup := by
  intro ls
  induction ls with
  | nil =>
    intro acc res h hnd
    simp only [renderConnectorsAux, Except.ok.injEq] at h
    subst h
    exact hnd
  | cons l tail ih =>
    intro acc res h hnd
    simp only [renderConnectorsAux] at h
    cases hstep : renderConnectorStep d acc l with
    | error e => rw [hstep] at h; exact absurd h (by simp)
    | ok acc2 =>
      rw [hstep] at h
      refine ih acc2 res h ?_
      rcases renderConnectorStep_ok_cases hstep with heq | ⟨key, st, hkey, heq⟩
      · rw [heq]; exact hnd
      · rw [heq]
        simp only [List.map_append, List.map_cons, List.map_nil]
        simp [List.nodup_append, hnd, hkey]

lemma renderConnectorStep_endpoints {d : Node} {acc : List (String × Node × Node)}
    {l : Link} {acc2 : List (String × Node × Node)}
    (h : renderConnectorStep d acc l = .ok acc2) :
    ∀ key s t, (key, s, t) ∈ acc2 → (key, s, t) ∈ acc ∨ s = d ∨ s = t := by
  intro key s t hmem
  unfold renderConnectorStep at h
  by_cases hd : l.source = some d
  · rw [if_pos hd, if_pos hd] at h
    cases ht : l.target with
    | none =>
      rw [ht] at h
      exact absurd h (by simp)
    | some t0 =>
      rw [ht] at h
      dsimp only at h
      split at h
      · simp only [Except.ok.injEq] at h
        subst h
        exact Or.inl hmem
      · simp only [Except.ok.injEq] at h
        subst h
        rcases List.mem_append.mp hmem with hin | hin
        · exact Or.inl hin
        · simp only [List.mem_singleton, Prod.mk.injEq] at hin
          exact Or.inr (Or.inl hin.2.1)
  · rw [if_neg hd, if_neg hd] at h
    cases hs : l.source with
    | none =>
      rw [hs] at h
      exact absurd h (by simp)
    | some s0 =>
      rw [hs] at h
      dsimp only at h
      split at h
      · simp only [Except.ok.injEq] at h
        subst h
        exact Or.inl hmem
      · simp only [Except.ok.injEq] at h
        subst h
        rcases List.mem_append.mp hmem with hin | hin
        · exact Or.inl hin
        · simp only [List.mem_singleton, Prod.mk.injEq] at hin
          exact Or.inr (Or.inr (hin.2.1.trans hin.2.2.symm))

lemma renderConnectorsAux_endpoints {d : Node} :
    ∀ (ls : List Link) (acc res : List (String × Node × Node)),
      renderConnectorsAux d acc ls = .ok res →
      (∀ key s t, (key, s, t) ∈ acc → s = d ∨ s = t) →
      ∀ key s t, (key, s, t) ∈ res → s = d ∨ s = t := by
  intro ls
  induction ls with
  | nil =>
    intro acc res h hacc
    simp only [renderConnectorsAux, Except.ok.injEq] at h
    subst h
    exact hacc
  | cons l tail ih =>
    intro acc res h hacc
    simp only [renderConnectorsAux] at h
    cases hstep : renderConnectorStep d acc l with
    | error e => rw [hstep] at h; exact absurd h (by simp)
    | ok acc2 =>
      rw [hstep] at h
      refine ih acc2 res h ?_
      intro key s t hmem
      rcases renderConnectorStep_endpoints hstep key s t hmem with hin | hout
      · exact hacc key s t hin
      · exact hout

lemma mem_toggleCategoryVisibility {category : String} {sc : Bool}
    {rs : List NodeRender} {r : NodeRender}
    (hr : r ∈ toggleCategoryVisibility category sc rs)
    (hg : r.node.group = category) :
    r.hidden = !sc ∧ r.opacity = (if sc then 1 else 0) := by
  unfold toggleCategoryVisibility at hr
  split at hr
  · rename_i hguard
    exfalso
    simp only [beq_iff_eq, List.length_eq_zero] at hguard
    have : r ∈ rs.filter (fun r2 => r2.node.group == category) :=
      List.mem_filter.mpr ⟨hr, by simp [hg]⟩
    rw [hguard] at this
    exact absurd this (by simp)
  · rw [List.mem_map] at hr
    obtain ⟨r1, hr1, heq⟩ := hr
    by_cases hg1 : r1.node.group = category
    · rw [if_pos (by simp [hg1])] at heq
      subst heq
      exact ⟨rfl, rfl⟩
    · rw [if_neg (by simp [hg1])] at heq
      subst heq
      exact absurd hg hg1

lemma mkData_getField_nodes (nv lv : JSValue) :
    (mkData nv lv).getField "nodes" = nv := rfl

lemma mkData_getField_links (nv lv : JSValue) :
    (mkData nv lv).getField "links" = lv := rfl

lemma mkData_truthy (nv lv : JSValue) : (mkData nv lv).truthy = true := rfl

lemma mkData_isObjectType (nv lv : JSValue) :
    (mkData nv lv).isObjectType = true := rfl

lemma if_bool_then_false (c x : Bool) : (if c then false else x) = (!c && x) := by
  cases c <;> simp

/-! ## Claim theorems -/

/-- C10: `validateDataStructure` accepts a payload if and only if the
payload is a truthy object, `data.nodes` and `data.links` are non-empty
arrays, the first node has truthy `id`, `group` and `label`, the first
link has truthy `source`, `target` and `type`, and the first link's
`examples`, when truthy, is an array; fields of every node and link
other than the first are never inspected, so replacing all later nodes
and links leaves the verdict unchanged (a dataset whose second or later
node or link lacks a required field still loads). -/
theorem claim_c10 :
    (∀ data : JSValue, validateDataStructure data = validateSpecC10 data) ∧
    (∀ (n0 l0 : JSValue) (rest rest2 lrest lrest2 : List JSValue),
      validateDataStructure (mkData (.arr (n0 :: rest)) (.arr (l0 :: lrest))) =
        validateDataStructure (mkData (.arr (n0 :: rest2)) (.arr (l0 :: lrest2)))) := by
  constructor
  · intro data
    unfold validateDataStructure validateSpecC10
    simp only [if_bool_then_false, Bool.not_or, Bool.not_and, Bool.not_not,
      Bool.and_true, Bool.and_assoc]
  · intro n0 l0 rest rest2 lrest lrest2
    simp [validateDataStructure, mkData_getField_nodes, mkData_getField_links,
      mkData_truthy, mkData_isObjectType, JSValue.isArray, JSValue.arrLength,
      JSValue.arrHead]

/-- C2 (amended): loading a dataset whose `links` array is empty fails:
`validateDataStructure` rejects any payload with an empty `links` array
(regardless of the nodes), so the visualization never initializes and
the single node is never clickable; independently, the `nodeClicked`
neighbor computation on a node with no matching links returns just the
clicked node with no connected links and no rendered connectors, without
error. -/
theorem claim_c2 :
    (∀ nodesV : JSValue, validateDataStructure (mkData nodesV (.arr [])) = false) ∧
    nodeClickedConnections envNode [] false = .ok ([envNode], []) ∧
    renderMindMapConnectors envNode [] = .ok [] := by
  refine ⟨?_, rfl, rfl⟩
  intro nv
  cases nv <;> first
    | rfl
    | (rename_i xs; cases xs <;> rfl)

/-- C2 counterexample: the dataset with the single node
`{id: "environment", group: "factor", label: "Environment"}` and no
links is rejected by `validateDataStructure` (the claim says it is
accepted and the visualization initializes). -/
theorem claim_c2_counterexample :
    validateDataStructure (mkData (.arr [envJS]) (.arr [])) = false := rfl

/-- C1 (amended): a link whose source or target id does not resolve is
not excluded anywhere: link processing keeps it in the links array with
an `undefined` endpoint, the link selection data-binds the whole array
unfiltered, and any neighbor query (`findConnectedNodes`) over a link
list containing such a link fails with a TypeError (reading `id` of
`undefined`) instead of skipping the link. -/
theorem claim_c1 :
    ∀ (startIds : List String) (links : List Link),
      (∃ l ∈ links, l.source = none ∨ l.target = none) →
      findConnectedNodes startIds links = .error () ∧
        renderedLinkData links = links := by
  intro startIds links h
  exact ⟨findConnectedAux_error links _ h, rfl⟩

/-- C1 witness: the amended theorem applied to a one-node dataset with
the raw link `environment → ghost` whose target id resolves to no
node. -/
theorem claim_c1_witness :
    findConnectedNodes ["environment"]
        (resolveLinks [envNode] [⟨"environment", "ghost", "flow"⟩]) = .error () ∧
      renderedLinkData (resolveLinks [envNode] [⟨"environment", "ghost", "flow"⟩]) =
        resolveLinks [envNode] [⟨"environment", "ghost", "flow"⟩] :=
  claim_c1 ["environment"] (resolveLinks [envNode] [⟨"environment", "ghost", "flow"⟩])
    ⟨⟨some envNode, none, "flow"⟩, by decide, Or.inr rfl⟩

/-- C1 counterexample: for the dataset with the single node
`environment` and the raw link `environment → ghost`, the processed link
(with `undefined` target) is a member of the data bound to the rendered
link selection, and `findConnectedNodes` on the processed links throws
instead of dropping the link — the claim says such a link is excluded
from the renderable link set and from neighbor queries. -/
theorem claim_c1_counterexample :
    (⟨some envNode, none, "flow"⟩ : Link) ∈
        renderedLinkData (resolveLinks [envNode] [⟨"environment", "ghost", "flow"⟩]) ∧
      findConnectedNodes ["environment"]
        (resolveLinks [envNode] [⟨"environment", "ghost", "flow"⟩]) = .error () := by
  constructor
  · decide
  · rfl

/-- The earlier of two nodes sharing the id `dup`. -/
def dupA : Node := ⟨"dup", "factor", "First"⟩

/-- The later of two nodes sharing the id `dup`. -/
def dupB : Node := ⟨"dup", "core_flow", "Second"⟩

/-- JSON value of the earlier duplicate node. -/
def dupJS1 : JSValue :=
  .obj [("id", .str "dup"), ("group", .str "factor"), ("label", .str "First")]

/-- JSON value of the later duplicate node. -/
def dupJS2 : JSValue :=
  .obj [("id", .str "dup"), ("group", .str "core_flow"), ("label", .str "Second")]

/-- JSON value of a link between the duplicated id and itself. -/
def dupLinkJS : JSValue :=
  .obj [("source", .str "dup"), ("target", .str "dup"), ("type", .str "flow")]

/-- C8 (amended): duplicate ids are not rejected, and the id-to-node map
together with link-endpoint resolution resolve a duplicated id to the
last node carrying it; but the earlier duplicate is still observable:
it remains in the nodes array, is data-bound to the rendered node
selection as its own element, and id-based DOM selection
(`d3.select` returning the first match) observes the earlier element. -/
theorem claim_c8 :
    ∀ (pre mid post : List Node) (n1 n2 : Node) (ty : String),
      n1.id = n2.id →
      (∀ n ∈ post, n.id ≠ n1.id) →
      nodeMapGet (pre ++ n1 :: (mid ++ n2 :: post)) n1.id = some n2 ∧
        resolveLinks (pre ++ n1 :: (mid ++ n2 :: post)) [⟨n1.id, n1.id, ty⟩] =
          [⟨some n2, some n2, ty⟩] ∧
        n1 ∈ renderedNodeData (pre ++ n1 :: (mid ++ n2 :: post)) := by
  intro pre mid post n1 n2 ty hid hpost
  have hmap : nodeMapGet (pre ++ n1 :: (mid ++ n2 :: post)) n1.id = some n2 := by
    unfold nodeMapGet
    have hrev : (pre ++ n1 :: (mid ++ n2 :: post)).reverse =
        post.reverse ++ n2 :: (mid.reverse ++ n1 :: pre.reverse) := by
      simp
    rw [hrev, List.find?_append]
    have hnone : post.reverse.find? (fun n => n.id == n1.id) = none := by
      rw [List.find?_eq_none]
      intro x hx
      simp only [List.mem_reverse] at hx
      simp [hpost x hx]
    rw [hnone, List.find?_cons_of_pos _ (by simp [hid])]
    rfl
  refine ⟨hmap, ?_, ?_⟩
  · simp [resolveLinks, hmap]
  · unfold renderedNodeData
    simp

/-- C8 witness: the amended theorem applied to the two-node dataset
`[dupA, dupB]` sharing the id `dup`. -/
theorem claim_c8_witness :
    nodeMapGet ([] ++ dupA :: ([] ++ dupB :: [])) dupA.id = some dupB ∧
      resolveLinks ([] ++ dupA :: ([] ++ dupB :: [])) [⟨dupA.id, dupA.id, "flow"⟩] =
        [⟨some dupB, some dupB, "flow"⟩] ∧
      dupA ∈ renderedNodeData ([] ++ dupA :: ([] ++ dupB :: [])) :=
  claim_c8 [] [] [] dupA dupB "flow" rfl (by decide)

/-- C8 counterexample: the duplicate-id dataset is not rejected
(`validateDataStructure` returns true), yet the earlier duplicate is
observable: it is data-bound to the rendered node selection and is the
element id-based DOM selection returns; so neither branch of the
claimed disjunction holds. -/
theorem claim_c8_counterexample :
    validateDataStructure (mkData (.arr [dupJS1, dupJS2]) (.arr [dupLinkJS])) = true ∧
      dupA ∈ renderedNodeData [dupA, dupB] ∧
      domFirstNodeWithId [dupA, dupB] "dup" = some dupA ∧
      nodeMapGet [dupA, dupB] "dup" = some dupB := by
  refine ⟨rfl, ?_, rfl, rfl⟩
  decide

/-- C3 (amended): when every stage-1 core id is already visible — in
particular in the Full state — a continue request does not wrap the
journey back to the environment-only collapsed state: the stage
detector returns the first stage whose (nested) core list is contained
in the visible set, which is stage index 0, so the journey moves to the
stage-2 visible set, which contains `production` and the other stage-2
core ids. -/
theorem claim_c3 :
    ∀ (nodes : List Node) (links : List Link) (expanded connected : List String),
      stage1Cores.all (fun i => decide (i ∈ expanded)) = true →
      findConnectedNodes stage2Cores links = .ok connected →
      continueFoodJourney nodes links expanded =
          .ok (jsSetUnion stage2Cores connected) ∧
        "production" ∈ jsSetUnion stage2Cores connected := by
  intro nodes links expanded connected hdetect hconn
  have hdet : detectCurrentStage expanded (journeyStageCoreLists nodes) = some 0 := by
    unfold journeyStageCoreLists detectCurrentStage
    rw [if_pos hdetect]
  have hnext : nextStageCores nodes expanded = stage2Cores := by
    simp only [nextStageCores, hdet]
    rfl
  constructor
  · unfold continueFoodJourney
    rw [hnext, hconn]
  · exact mem_jsSetUnion.mpr (Or.inl (by decide))

/-- C3 witness: the amended theorem applied to the five-node dataset in
its Full state (every node id expanded). -/
theorem claim_c3_witness :
    continueFoodJourney nodes5 links5 stage1Cores =
        .ok (jsSetUnion stage2Cores stage2Cores) ∧
      "production" ∈ jsSetUnion stage2Cores stage2Cores :=
  claim_c3 nodes5 links5 stage1Cores stage2Cores (by decide) rfl

/-- C3 counterexample: for the five-node dataset in the Full state
(all five node ids visible), a continue request yields the stage-2
visible set, which still contains `production` and is not the
environment-only set — the claim says the journey wraps to Collapsed
with `environment` as the only visible node. -/
theorem claim_c3_counterexample :
    continueFoodJourney nodes5 links5
        ["environment", "inputs", "production", "fertilizer_industry",
         "pest_management"] =
      .ok ["environment", "inputs", "production", "fertilizer_industry",
           "pest_management", "packhouses", "processing"] ∧
      "production" ∈ ["environment", "inputs", "production", "fertilizer_industry",
        "pest_management", "packhouses", "processing"] ∧
      ["environment", "inputs", "production", "fertilizer_industry",
        "pest_management", "packhouses", "processing"] ≠ ["environment"] := by
  refine ⟨rfl, by decide, by decide⟩

/-- C4 (amended): after any journey transition, the visible set contains
the next stage's core list and every node one hop from it — but, the
neighbor query being a single in-order pass over the links array with a
growing set, the visible set can additionally contain nodes two or more
hops away, depending on the ordering of the links array, so equality
with core ∪ one-hop fails. -/
theorem claim_c4 :
    ∀ (nodes : List Node) (links : List Link) (expanded result : List String),
      continueFoodJourney nodes links expanded = .ok result →
      ∀ x : String,
        (x ∈ nextStageCores nodes expanded ∨
          x ∈ oneHopNeighborsSpec (nextStageCores nodes expanded) links) →
        x ∈ result := by
  intro nodes links expanded result h x hx
  unfold continueFoodJourney at h
  cases hconn : findConnectedNodes (nextStageCores nodes expanded) links with
  | error e => rw [hconn] at h; exact absurd h (by simp)
  | ok connected =>
    rw [hconn] at h
    simp only [Except.ok.injEq] at h
    subst h
    rcases hx with hx | hx
    · exact mem_jsSetUnion.mpr (Or.inl hx)
    · refine mem_jsSetUnion.mpr (Or.inr ?_)
      unfold oneHopNeighborsSpec at hx
      rw [List.mem_flatMap] at hx
      obtain ⟨l, hl, hxl⟩ := hx
      unfold findConnectedNodes at hconn
      cases hs : l.source with
      | none => rw [hs] at hxl; exact absurd hxl (by simp)
      | some a =>
        cases ht : l.target with
        | none => rw [hs, ht] at hxl; exact absurd hxl (by simp)
        | some b =>
          rw [hs, ht] at hxl
          have hone := findConnectedAux_one_hop links _ connected
            (fun i hi => mem_jsSetOfList.mpr hi) hconn l hl a b hs ht
          rcases List.mem_append.mp hxl with hx2 | hx2
          · by_cases hc : a.id ∈ nextStageCores nodes expanded
            · rw [if_pos hc] at hx2
              rw [List.mem_singleton.mp hx2]
              exact hone.1 hc
            · rw [if_neg hc] at hx2
              exact absurd hx2 (by simp)
          · by_cases hc : b.id ∈ nextStageCores nodes expanded
            · rw [if_pos hc] at hx2
              rw [List.mem_singleton.mp hx2]
              exact hone.2 hc
            · rw [if_neg hc] at hx2
              exact absurd hx2 (by simp)

/-- C4 witness: the amended theorem applied to the environment-a-b
dataset; the one-hop neighbor `a` of the stage-1 core list is in the
transition's visible set. -/
theorem claim_c4_witness :
    "a" ∈ ["environment", "inputs", "production", "fertilizer_industry",
      "pest_management", "a", "b"] :=
  claim_c4 nodesAB linksAB ["environment"]
    ["environment", "inputs", "production", "fertilizer_industry",
      "pest_management", "a", "b"] rfl "a" (Or.inr (by decide))

/-- C4 counterexample: on the environment-a-b dataset with the links
ordered environment → a before a → b, the transition from the initial
state reveals `b`, which is neither in the next stage's core list
(stage 1) nor one hop from it — the claim says no node two or more hops
from the core list becomes visible for any ordering of the links
array. -/
theorem claim_c4_counterexample :
    continueFoodJourney nodesAB linksAB ["environment"] =
        .ok ["environment", "inputs", "production", "fertilizer_industry",
          "pest_management", "a", "b"] ∧
      nextStageCores nodesAB ["environment"] = stage1Cores ∧
      "b" ∈ ["environment", "inputs", "production", "fertilizer_industry",
        "pest_management", "a", "b"] ∧
      "b" ∉ stage1Cores ∧
      "b" ∉ oneHopNeighborsSpec stage1Cores linksAB := by
  refine ⟨rfl, rfl, by decide, by decide, by decide⟩

/-- C5 (amended): the claim's "in particular" clause holds — the
`hidden` class set by unchecking a category checkbox wins over the
inline opacity a journey transition writes (the stylesheet's
`!important` rule), so a journey-stage transition never renders a node
of an unchecked category; but the claimed "in-stage AND
category-enabled" intersection fails in the other direction: enabling a
category checkbox removes the `hidden` class and writes inline opacity
1 (and pointer events) for every node of that category regardless of
the disclosure stage's visible set, so a node outside the stage's
visible set becomes rendered. -/
theorem claim_c5 :
    ∀ (expanded : List String) (rs : List NodeRender) (category : String),
      (∀ r ∈ journeyRevealTransition expanded
          (toggleCategoryVisibility category false rs),
        r.node.group = category → renderedOpacity r = 0) ∧
      (∀ r ∈ toggleCategoryVisibility category true rs,
        r.node.group = category → renderedOpacity r = 1) := by
  intro expanded rs category
  constructor
  · intro r hr hg
    unfold journeyRevealTransition at hr
    rw [List.mem_map] at hr
    obtain ⟨r0, hr0, heq⟩ := hr
    have h0 := mem_toggleCategoryVisibility hr0 (by rw [← heq] at hg; exact hg)
    subst heq
    unfold renderedOpacity
    simp [h0.1]
  · intro r hr hg
    have h0 := mem_toggleCategoryVisibility hr hg
    unfold renderedOpacity
    rw [h0.1, h0.2]
    rfl

/-- C5 witness: the amended theorem applied to a two-factor-node state
in the Collapsed stage (visible set `environment` only): after the
`factor` checkbox is unchecked, a journey reveal writes inline opacity 1
on `environment` yet its computed opacity is 0 (hidden class wins); and
re-checking the checkbox gives the out-of-stage node `a` computed
opacity 1. -/
theorem claim_c5_witness :
    renderedOpacity ⟨envNode, true, 1⟩ = 0 ∧ renderedOpacity ⟨aNode, false, 1⟩ = 1 :=
  ⟨(claim_c5 ["environment"] [⟨envNode, false, 1⟩, ⟨aNode, false, 0⟩] "factor").1
      ⟨envNode, true, 1⟩ (by decide) rfl,
    (claim_c5 ["environment"] [⟨envNode, false, 1⟩, ⟨aNode, false, 0⟩] "factor").2
      ⟨aNode, false, 1⟩ (by decide) rfl⟩

/-- C5 counterexample: in the Collapsed disclosure state (visible set
`environment` only, node `a` at inline opacity 0), unchecking and
re-checking the `factor` category checkbox leaves `a` with no `hidden`
class, inline opacity 1 and pointer events enabled — computed opacity 1,
rendered — although `a` is not in the current disclosure stage's visible
set: a node is rendered without being in-stage, refuting the claimed
intersection invariant. -/
theorem claim_c5_counterexample :
    toggleCategoryVisibility "factor" true
        (toggleCategoryVisibility "factor" false
          [⟨envNode, false, 1⟩, ⟨aNode, false, 0⟩]) =
      [⟨envNode, false, 1⟩, ⟨aNode, false, 1⟩] ∧
      renderedOpacity ⟨aNode, false, 1⟩ = 1 ∧
      "a" ∉ (["environment"] : List String) := by
  exact ⟨rfl, rfl, by decide⟩

/-- A mid-journey interaction state: the journey is expanded, only the
root is visible, a node is selected and pinned, mind-map elements are on
screen and the idle animations are stopped. -/
def journeyMidState : VizState :=
  { nodes := nodes5, links := links5, isJourneyExpanded := true,
    expandedNodes := ["environment"], selectedNode := some "production",
    detailsText := "Production details", pinnedIds := ["production"],
    mindMapElementCount := 3, idleAnimationsRunning := false,
    layoutIsInitial := false }

/-- The same interaction state at Full: every node id is expanded. -/
def journeyFullState : VizState :=
  { journeyMidState with expandedNodes := stage1Cores }

/-- C6 (amended): a background click reverts the visualization to the
base state — clearing the selection, resetting the details panel,
clearing every pin, restoring the initial layout, removing mind-map and
example elements and restarting the idle animations — only when the
journey is not mid-expansion; when the journey is expanded and fewer
node ids are expanded than the dataset has nodes, the click instead
advances the journey and leaves selection, details, pins, mind-map
elements and animations untouched. -/
theorem claim_c6 :
    ∀ s : VizState,
      ¬(s.isJourneyExpanded = true ∧ s.expandedNodes.length < s.nodes.length) →
      svgBackgroundClick s =
        .ok { s with selectedNode := none,
                     detailsText := "Select an element to see details.",
                     pinnedIds := [],
                     layoutIsInitial := true,
                     mindMapElementCount := 0,
                     idleAnimationsRunning := true } := by
  intro s h
  have hcond : (s.isJourneyExpanded &&
      decide (s.expandedNodes.length < s.nodes.length)) = false := by
    cases hj : s.isJourneyExpanded with
    | false => rfl
    | true =>
      have hlen : ¬s.expandedNodes.length < s.nodes.length := fun hl => h ⟨hj, hl⟩
      simp [hlen]
  unfold svgBackgroundClick
  rw [hcond]
  rfl

/-- C6 witness: the amended theorem applied to the Full-state
configuration, where the guard fails and the click resets. -/
theorem claim_c6_witness :
    svgBackgroundClick journeyFullState =
      .ok { journeyFullState with
            selectedNode := none,
            detailsText := "Select an element to see details.",
            pinnedIds := [],
            layoutIsInitial := true,
            mindMapElementCount := 0,
            idleAnimationsRunning := true } :=
  claim_c6 journeyFullState (by decide)

/-- C6 counterexample: in the mid-journey state, a background click does
not revert to the base state: it advances the journey, and the node
selection, details panel, pins, mind-map elements and stopped animations
all survive — the claim says a background click from any state after
load clears the selection, resets the details, removes mind-map
elements and restarts the idle animations. -/
theorem claim_c6_counterexample :
    svgBackgroundClick journeyMidState =
        .ok { journeyMidState with expandedNodes := stage1Cores } ∧
      journeyMidState.selectedNode = some "production" ∧
      ({ journeyMidState with expandedNodes := stage1Cores } : VizState).selectedNode =
        some "production" ∧
      ({ journeyMidState with expandedNodes := stage1Cores } : VizState).mindMapElementCount = 3 ∧
      ({ journeyMidState with expandedNodes := stage1Cores } : VizState).idleAnimationsRunning =
        false ∧
      ({ journeyMidState with expandedNodes := stage1Cores } : VizState).pinnedIds =
        ["production"] := by
  exact ⟨rfl, rfl, rfl, rfl, rfl, rfl⟩

/-- Two links of type flow between the same endpoint pair, opposite
directions. -/
def abLink : Link := ⟨some aNode, some bNode, "flow"⟩

/-- Two links of type flow between the same endpoint pair, opposite
directions. -/
def baLink : Link := ⟨some bNode, some aNode, "flow"⟩

/-- C7 (amended): two links of the same type whose endpoint pairs are
equal up to direction are deduplicated by `uniqueLinksMap` to a single
kept link under the sorted endpoint pair plus type key (keys pairwise
distinct, every matching link's key reaching the map, first link per
key winning), and the rendering loop emits at most one connector per
key; but the single rendered element joins the node pair only when the
kept link's source is the clicked node: the endpoint recomputation at
lines 1019-1020 collapses both endpoints of an inbound kept link to its
source, so every rendered connector either starts at the clicked node
or is degenerate (equal endpoints at the other node), and in the latter
case no connector between the pair is rendered. -/
theorem claim_c7 :
    ∀ (d : Node) (links : List Link) (neg : Bool) (conn : List Node)
      (m : List (String × Link)) (res : List (String × Node × Node)),
      nodeClickedConnections d links neg = .ok (conn, m) →
      renderMindMapConnectors d (m.map Prod.snd) = .ok res →
      (m.map Prod.fst).Nodup ∧ (res.map Prod.fst).Nodup ∧
        (∀ l ∈ links, ∀ a b : Node, l.source = some a → l.target = some b →
          (l.source = some d ∨ l.target = some d) →
          l.type ∈ allowedMindMapTypes neg →
          sortedPairKey a.id b.id l.type ∈ m.map Prod.fst) ∧
        (∀ key s t, (key, s, t) ∈ res → s = d ∨ s = t) := by
  intro d links neg conn m res h h2
  unfold nodeClickedConnections at h
  unfold renderMindMapConnectors at h2
  refine ⟨?_, ?_, ?_, ?_⟩
  · exact nodeClickedAux_keys_nodup links ([d], []) (conn, m) h (by simp)
  · exact renderConnectorsAux_keys_nodup (m.map Prod.snd) [] res h2 (by simp)
  · intro l hl a b hsrc htgt hmatch hty
    exact nodeClickedAux_matched links ([d], []) (conn, m) h l hl a b hsrc htgt hmatch hty
  · exact renderConnectorsAux_endpoints (m.map Prod.snd) [] res h2 (by simp)

/-- C7 witness: the amended theorem applied to the spec's mirrored-pair
scenario with `b` clicked: the two links collapse to the single kept
link `a → b` under the key of the sorted pair, and the one rendered
element is the degenerate connector at `a` — its endpoints are equal,
as the endpoint characterization states. -/
theorem claim_c7_witness :
    nodeClickedConnections bNode [abLink, baLink] false =
        .ok ([bNode, aNode], [("a-b-flow", abLink)]) ∧
      renderMindMapConnectors bNode [abLink] = .ok [("a-a-flow", aNode, aNode)] ∧
      ([("a-b-flow", abLink)].map Prod.fst).Nodup ∧
      ([("a-a-flow", aNode, aNode)].map (Prod.fst)).Nodup ∧
      ∀ key s t, (key, s, t) ∈ [("a-a-flow", aNode, aNode)] → s = bNode ∨ s = t := by
  have h := claim_c7 bNode [abLink, baLink] false [bNode, aNode]
    [("a-b-flow", abLink)] [("a-a-flow", aNode, aNode)] rfl rfl
  exact ⟨rfl, rfl, h.1, h.2.1, h.2.2.2⟩

/-- C7 counterexample: clicking `b` in the spec's scenario — the links
`a → b` and `b → a`, both of type flow — keeps the link `a → b`, and
the rendering loop emits the single element `("a-a-flow", a, a)`: both
endpoints are the node `a`, its key is not the sorted endpoint pair
key `a-b-flow`, and no connector between the pair `(a, b)` is rendered —
the claim says exactly one connector between that node pair is rendered
under the sorted-pair-plus-type key. -/
theorem claim_c7_counterexample :
    nodeClickedConnections bNode [abLink, baLink] false =
        .ok ([bNode, aNode], [("a-b-flow", abLink)]) ∧
      renderMindMapConnectors bNode [abLink] = .ok [("a-a-flow", aNode, aNode)] ∧
      aNode ≠ bNode ∧ ("a-a-flow" : String) ≠ "a-b-flow" := by
  exact ⟨rfl, rfl, by decide, by decide⟩

/-- The focused node pinned at the viewport center (width = height =
1000), as `nodeClicked` leaves it: `x = y = 500` and `fx = fy = 500`. -/
def focusedSim : SimNode := ⟨prodNode, 500, 500, some 500, some 500⟩

/-- C9 (amended): the resize relayout never touches any node's `fx`/`fy`
pins (they survive the resize), but it unconditionally rewrites every
node's `x`/`y` by the category-circle layout and `updatePositions` draws
from `x`/`y`, so the focused node's on-screen position is displaced by
the resize. -/
theorem claim_c9 :
    ∀ (cosFrac sinFrac : Nat → Nat → ℚ) (w h : ℚ) (ns : List SimNode),
      (resizeRelayout cosFrac sinFrac w h ns).map (fun sn => (sn.node, sn.fx, sn.fy)) =
        ns.map (fun sn => (sn.node, sn.fx, sn.fy)) := by
  intro cosFrac sinFrac w h ns
  unfold resizeRelayout positionNodes
  rw [List.map_map]
  have h2 : ns.enum.map
      ((fun sn => (sn.node, sn.fx, sn.fy)) ∘ Prod.snd (α := Nat)) =
      ns.map (fun sn => (sn.node, sn.fx, sn.fy)) := by
    rw [← List.map_map, List.enum_map_snd]
  rw [← h2]
  exact List.map_congr_left fun p _ => rfl

/-- C9 counterexample: a resize to the same 1000 × 1000 viewport while
`production` is focused and pinned at the center moves its `x` from 500
to 650 (the `core_flow` category circle), so its rendered transform is
displaced even though `fx`/`fy` remain pinned at 500 — the claim says
the on-screen positions are not displaced by the resize re-layout.  The
trig parameters are instantiated at the only angle evaluated, `0`
(single-node category), where `cos 0 = 1` and `sin 0 = 0` exactly. -/
theorem claim_c9_counterexample :
    resizeRelayout cosAtZero sinAtZero 1000 1000 [focusedSim] =
        [⟨prodNode, 650, 500, some 500, some 500⟩] ∧
      renderedTransform ⟨prodNode, 650, 500, some 500, some 500⟩ ≠
        renderedTransform focusedSim := by
  constructor
  · unfold resizeRelayout positionNodes focusedSim prodNode categoryCenter cosAtZero
      sinAtZero
    norm_num [List.enum]
  · unfold renderedTransform focusedSim
    norm_num

end FoodSystems
